import Mathlib

/-!
# Verification of the npm-search watch pipeline (`src/watch.ts`)

A shallow embedding of the change-data-capture watcher: the per-change
pipeline (`loop`), the consumer wrapper created by `createChangeConsumer`
(`consume`), the skipped-jobs reaper (`checkSkipped`), the change-reader
driver callbacks (`onChange` / `onSaturated`), the startup sequence of
`run()` (`runStartup`), and a small-step scheduler model of the
concurrency-1 job queue (`SchedStep`).

External collaborators whose sources are not part of the watcher module
(the state store, the npm client, the formatter, the index client) are
modelled as oracles in `Env` or, where they decide a claim, modelled from
the specification and marked as such in their doc comments.
-/

namespace NpmSearch

/-- One entry of a change's `changes` array: `{ rev: string }`. -/
structure RevChange where
  rev : String
deriving DecidableEq

/-- A change-feed item: `{ id, seq, deleted, changes: [{rev}] }`
(`DatabaseChangesResultItem` as used by `watch.ts`). -/
structure Change where
  id : String
  seq : Int
  deleted : Bool
  changes : List RevChange
deriving DecidableEq

/-- `ChangeJob` from `watch.ts`: `{ change, retry, ignoreSeq }`. -/
structure ChangeJob where
  change : Change
  retry : Nat
  ignoreSeq : Bool
deriving DecidableEq

/-- Result of `npm.getDoc`. Modelled from the spec: the registry document
fetch (`src/npm`, not under `src/`) returns `Document | LookupFailure`,
a lookup failure being detected by a populated `error` field
(`isFailure` in `src/npm/types`). Documents are opaque payloads, kept as
strings. -/
inductive DocResult where
  | failure (error : String)
  | success (doc : String)
deriving DecidableEq

/-- `isFailure` from `src/npm/types`. Modelled from the spec: a lookup
failure is detected by the populated `error` field. -/
def isFailure : DocResult → Bool
  | DocResult.failure _ => true
  | DocResult.success _ => false

/-- Oracles for the external collaborators of the watcher, plus the two
configuration values the consumer reads. `getDoc` additionally takes the
count of fetches performed so far, so that scenarios such as "fetch fails
twice then succeeds" are expressible; `formatPkg` is the external
formatter (document to record, or `none` for skip); `lostSaveOk` tells
whether a write to the "lost" index succeeds. -/
structure Env where
  getDoc : Nat → String → String → DocResult
  formatPkg : String → Option String
  retryMax : Nat
  lostSaveOk : Bool

/-- Observable side effects of the watcher, recorded in order. -/
inductive Action where
  | incPackages
  | logNoName
  | backoffWait (retry : Nat)
  | logNoChange
  | fetchDoc (id : String) (rev : String)
  | upsert (record : String)
  | deleteObject (id : String)
  | saveSeq (seq : Int)
  | reportError (msg : String)
  | lostSave (id : String)
  | logLostError
  | logProgress (seq : Int)
deriving DecidableEq

/-- The two ways `loop` can throw: `DeletedError` (from `src/errors`,
raised on `change.deleted`) or a plain `Error` carrying the upstream
failure message (`throw new Error(res.error)`). -/
inductive LoopErr where
  | deletedError
  | err (msg : String)
deriving DecidableEq

/-- `Watch.loop` (`watch.ts` lines 254-289): process one change.
Returns the outcome (`ok` or a thrown error), the list of side effects in
order, and the updated fetch counter. -/
def loop (env : Env) (fetchCount : Nat) (job : ChangeJob) :
    Except LoopErr Unit × List Action × Nat :=
  let change := job.change
  let acts0 : List Action := [Action.incPackages]
  if change.id = "" then
    (Except.ok (), acts0 ++ [Action.logNoName], fetchCount)
  else
    let acts1 := acts0 ++ (if 0 < job.retry then [Action.backoffWait job.retry] else [])
    if change.deleted then
      (Except.error LoopErr.deletedError, acts1, fetchCount)
    else if change.changes.length ≤ 0 then
      (Except.ok (), acts1 ++ [Action.logNoChange], fetchCount)
    else
      match change.changes with
      | [] => (Except.ok (), acts1 ++ [Action.logNoChange], fetchCount)
      | c :: _ =>
        let acts2 := acts1 ++ [Action.fetchDoc change.id c.rev]
        match env.getDoc fetchCount change.id c.rev with
        | DocResult.failure msg =>
          (Except.error (LoopErr.err msg), acts2, fetchCount + 1)
        | DocResult.success doc =>
          match env.formatPkg doc with
          | none => (Except.ok (), acts2, fetchCount + 1)
          | some record => (Except.ok (), acts2 ++ [Action.upsert record], fetchCount + 1)

/-- Modelled from the spec: the state checkpointer (§4.C), whose source
`StateManager.ts` is not under `src/`. A `save({seq: s})` with `s` below
the current checkpoint is a no-op; otherwise `s` is persisted. -/
def saveSeqModel (cur s : Int) : Int := if s < cur then cur else s

/-- Association-list lookup keyed by `String` (the `Map.get` of
`Watch.skipped` / `Watch.pkgsLastUpdate`). -/
def lookupKey {α : Type} (k : String) (l : List (String × α)) : Option α :=
  (l.find? (fun p => p.1 == k)).map Prod.snd

/-- Association-list removal (`Map.delete`). -/
def eraseKey {α : Type} (k : String) (l : List (String × α)) : List (String × α) :=
  l.filter (fun p => p.1 != k)

/-- Association-list insert-or-replace (`Map.set`): replaces the value in
place when the key is present, appends otherwise. -/
def setKey {α : Type} (k : String) (v : α) (l : List (String × α)) :
    List (String × α) :=
  if l.any (fun p => p.1 == k) then
    l.map (fun p => if p.1 == k then (k, v) else p)
  else l ++ [(k, v)]

/-- State of the watcher as touched by the consumer wrapper and the
reaper: the job queue (front of list = front of queue), the parked
(`skipped`) map, the persisted checkpoint, the persisted stage, the fetch
counter feeding `Env.getDoc`, and the trace of side effects. -/
structure WState where
  queue : List ChangeJob
  skipped : List (String × ChangeJob)
  savedSeq : Int
  stage : String
  fetchCount : Nat
  actions : List Action
deriving DecidableEq

/-- The consumer wrapper from `createChangeConsumer` (`watch.ts` lines
322-383): compute the effective `ignoreSeq`, supersede any parked entry
for the id, run `loop`, then either checkpoint (success, `¬ignoreSeq`),
delete from the index (`DeletedError`), or retry / park with a
best-effort lost-index write (other errors); the `finally` block logs
progress when `¬ignoreSeq`. -/
def consume (env : Env) (st : WState) (job : ChangeJob) : WState :=
  let ignoreSeq : Bool := decide (0 < job.retry) || job.ignoreSeq
  let seq := job.change.seq
  let id := job.change.id
  let st1 : WState := { st with skipped := eraseKey id st.skipped }
  let r := loop env st1.fetchCount job
  let st2 : WState := { st1 with fetchCount := r.2.2, actions := st1.actions ++ r.2.1 }
  let st3 : WState :=
    match r.1 with
    | Except.ok _ =>
      if ignoreSeq then st2
      else { st2 with savedSeq := saveSeqModel st2.savedSeq seq,
                      actions := st2.actions ++ [Action.saveSeq seq] }
    | Except.error LoopErr.deletedError =>
      { st2 with actions := st2.actions ++ [Action.deleteObject id] }
    | Except.error (LoopErr.err msg) =>
      let retried : ChangeJob := { job with retry := job.retry + 1 }
      let st2b : WState := { st2 with actions := st2.actions ++ [Action.reportError msg] }
      if retried.retry ≤ env.retryMax then
        { st2b with queue := retried :: st2b.queue }
      else
        let st2c : WState := { st2b with skipped := setKey id retried st2b.skipped }
        if env.lostSaveOk then { st2c with actions := st2c.actions ++ [Action.lostSave id] }
        else { st2c with actions := st2c.actions ++ [Action.logLostError] }
  if ignoreSeq then st3 else { st3 with actions := st3.actions ++ [Action.logProgress seq] }

/-- Drive the concurrency-1 consumer: repeatedly take the front job and
run the wrapper on it, until the queue is empty or fuel runs out. -/
def runQueue (env : Env) : Nat → WState → WState
  | 0, st => st
  | fuel + 1, st =>
    match st.queue with
    | [] => st
    | job :: rest => runQueue env fuel (consume env { st with queue := rest } job)

/-- One tick of the skipped-jobs reaper `Watch.checkSkipped` (`watch.ts`
lines 154-170). The source takes `clone = this.skipped.values()` — a live
ECMAScript Map iterator, not a copy — and then calls
`this.skipped.clear()` before iterating it: `Map.prototype.clear` empties
every entry of the `[[MapData]]` list the suspended iterator walks, so
the `for (const job of clone)` loop yields no entries at all. `clone`
therefore stands for the empty sequence the iterator produces after the
clear, the per-job `unshift` body never runs, and the tick merely clears
the parked map. -/
def checkSkipped (st : WState) : WState :=
  if 0 < st.skipped.length then
    let clone : List (String × ChangeJob) := []
    let cleared : WState := { st with skipped := [] }
    clone.foldl
      (fun s p =>
        { s with queue := { p.2 with retry := 0, ignoreSeq := true } :: s.queue })
      cleared
  else st

/-- State touched by the change-reader driver `launchChangeReader`
(`watch.ts` lines 115-149): the consumer queue as the driver sees it, the
`pkgsLastUpdate` map, and whether the upstream reader is paused. -/
structure RState where
  queue : List ChangeJob
  lastSeen : List (String × Nat)
  paused : Bool
deriving DecidableEq

/-- The `on('change')` handler of `launchChangeReader` (`watch.ts` lines
126-137): push `{change, retry: 0, ignoreSeq: false}` onto the back of
the queue; record `pkgsLastUpdate[id] = now` for a non-empty id; pause
the upstream reader when the queue length exceeds `watchMaxPrefetch`. -/
def onChange (watchMaxPrefetch : Nat) (st : RState) (change : Change) (now : Nat) :
    RState :=
  let st1 : RState :=
    { st with queue := st.queue ++ [{ change := change, retry := 0, ignoreSeq := false }] }
  let st2 : RState :=
    if change.id = "" then st1
    else { st1 with lastSeen := setKey change.id now st1.lastSeen }
  if watchMaxPrefetch < st2.queue.length then { st2 with paused := true } else st2

/-- The `saturated` hook of `launchChangeReader` (`watch.ts` lines
142-146): resume the upstream reader iff the queue length is below
`watchMinUnpause`. Also returns whether `resume()` was called. -/
def onSaturated (watchMinUnpause : Nat) (st : RState) : RState × Bool :=
  if st.queue.length < watchMinUnpause then ({ st with paused := false }, true)
  else (st, false)

/-- The startup steps a `run()` invocation can perform (`watch.ts` lines
74-96). `startRefreshScanner` names the start of the §4.H refresh scanner
(`checkToRefresh`); it is listed so that its absence from the actual
startup sequence is expressible. -/
inductive StartupAction where
  | saveStage (stage : String)
  | createConsumer
  | startTotalSeqInterval (ms : Nat)
  | startSkippedReaper
  | startRefreshScanner
  | startChangeReader
deriving DecidableEq

/-- The startup sequence actually performed by `Watch.run` (`watch.ts`
lines 74-96): persist `{stage: "watch"}`, construct the consumer queue,
start the 5000 ms `totalSequence` refresh interval, start the
skipped-jobs reaper, and start the change reader. The call to
`checkToRefresh` is commented out in the source (`// TO DO: uncomment
this`), so no refresh-scanner start appears. -/
def runStartup : List StartupAction :=
  [StartupAction.saveStage "watch", StartupAction.createConsumer,
   StartupAction.startTotalSeqInterval 5000, StartupAction.startSkippedReaper,
   StartupAction.startChangeReader]

/-- The process-one-change pipeline as the specification words it
(§4.F steps 1-8), written from the spec's sentences for comparison with
`loop`: (1) increment the packages counter; (2) reject empty id with a
logged error and success; (3) if `retry > 0` suspend for
`backoff(retry)`; (4) if `change.deleted` raise `Deleted`; (5) if
`change.changes` is empty, log and return success; (6) fetch the document
at `change.changes[0].rev`, raising an error carrying the upstream
message on lookup failure; (7) apply the formatter, returning success on
skip; (8) upsert the formatted record. -/
def processOneChangeSpec (env : Env) (fetchCount : Nat) (job : ChangeJob) :
    Except LoopErr Unit × List Action × Nat :=
  let acts := [Action.incPackages]
  if job.change.id = "" then (Except.ok (), acts ++ [Action.logNoName], fetchCount)
  else
    let acts := acts ++ (if 0 < job.retry then [Action.backoffWait job.retry] else [])
    if job.change.deleted then (Except.error LoopErr.deletedError, acts, fetchCount)
    else
      match job.change.changes with
      | [] => (Except.ok (), acts ++ [Action.logNoChange], fetchCount)
      | c :: _ =>
        let acts := acts ++ [Action.fetchDoc job.change.id c.rev]
        match env.getDoc fetchCount job.change.id c.rev with
        | DocResult.failure msg => (Except.error (LoopErr.err msg), acts, fetchCount + 1)
        | DocResult.success doc =>
          match env.formatPkg doc with
          | none => (Except.ok (), acts, fetchCount + 1)
          | some record => (Except.ok (), acts ++ [Action.upsert record], fetchCount + 1)

/-- Whether an action is an index upsert. -/
def isUpsert : Action → Bool
  | Action.upsert _ => true
  | _ => false

/-- Number of index upserts in a trace. -/
def countUpserts (l : List Action) : Nat := (l.filter isUpsert).length


/-- State of the small-step scheduler model of the concurrency-1 queue
(`queue(worker, 1)` at `watch.ts` line 383 together with the retry
`unshift` at line 359): the changes that have arrived so far (in arrival
order, a job's arrival index pointing into this list), the pending queue,
the number of worker invocations currently running, the job in flight,
and the arrival indices in order of first worker invocation. -/
structure SchedState where
  arrivals : List Change
  queue : List (Nat × ChangeJob)
  running : Nat
  current : Option (Nat × ChangeJob)
  started : List Nat
deriving DecidableEq

/-- The initial scheduler state. -/
def schedInit : SchedState :=
  { arrivals := [], queue := [], running := 0, current := none, started := [] }

/-- A live feed event arrives: `push({change, retry: 0, ignoreSeq: false})`
onto the back of the queue (`watch.ts` line 127). -/
def arriveF (s : SchedState) (c : Change) : SchedState :=
  { s with
    arrivals := s.arrivals ++ [c],
    queue := s.queue ++
      [(s.arrivals.length, { change := c, retry := 0, ignoreSeq := false })] }

/-- The worker takes the front job (possible only when nothing is
running: concurrency 1). Its arrival index is recorded on its first
invocation. -/
def startF (s : SchedState) (i : Nat) (j : ChangeJob) (rest : List (Nat × ChangeJob)) :
    SchedState :=
  { s with
    queue := rest, running := 1, current := some (i, j),
    started := if i ∈ s.started then s.started else s.started ++ [i] }

/-- The in-flight job finishes without requeueing (success, deleted, or
parked after exhausting retries). -/
def finishDoneF (s : SchedState) : SchedState :=
  { s with running := 0, current := none }

/-- The in-flight job fails and is `unshift`ed back onto the front of the
queue with `retry` incremented (`watch.ts` lines 355-359). -/
def finishRetryF (s : SchedState) (i : Nat) (j : ChangeJob) : SchedState :=
  { s with
    running := 0, current := none,
    queue := (i, { j with retry := j.retry + 1 }) :: s.queue }

/-- One step of the scheduler: an arrival, a worker start (requires
`running = 0`, the concurrency-1 discipline of `queue(worker, 1)`), a
non-requeueing finish, or a failing finish that retries via `unshift`
(allowed while `retry + 1 ≤ retryMax`). -/
inductive SchedStep (retryMax : Nat) : SchedState → SchedState → Prop where
  | arrive (s : SchedState) (c : Change) : SchedStep retryMax s (arriveF s c)
  | start (s : SchedState) (i : Nat) (j : ChangeJob) (rest : List (Nat × ChangeJob)) :
      s.running = 0 → s.queue = (i, j) :: rest → SchedStep retryMax s (startF s i j rest)
  | finishDone (s : SchedState) (i : Nat) (j : ChangeJob) :
      s.current = some (i, j) → SchedStep retryMax s (finishDoneF s)
  | finishRetry (s : SchedState) (i : Nat) (j : ChangeJob) :
      s.current = some (i, j) → j.retry + 1 ≤ retryMax →
      SchedStep retryMax s (finishRetryF s i j)

/-- Scheduler states reachable from the initial state. -/
def SchedReachable (retryMax : Nat) (s : SchedState) : Prop :=
  Relation.ReflTransGen (SchedStep retryMax) schedInit s

/-- The id of the `i`-th arrival, if any. -/
def arrivalId (s : SchedState) (i : Nat) : Option String :=
  (s.arrivals.get? i).map Change.id

/-- A registry/index environment for the update-then-delete scenario:
document `x` exists at revision `a`, the formatter indexes it. -/
def envXA : Env :=
  { getDoc := fun _ id rev =>
      if id = "x" ∧ rev = "a" then DocResult.success "x@a" else DocResult.failure "missing",
    formatPkg := fun doc => some (doc ++ "#formatted"),
    retryMax := 3,
    lostSaveOk := true }

/-- The live update for `x` at seq 10 (`{id:"x", seq:10, deleted:false,
changes:[{rev:"a"}]}`). -/
def jobUpd : ChangeJob :=
  { change := { id := "x", seq := 10, deleted := false, changes := [{ rev := "a" }] },
    retry := 0, ignoreSeq := false }

/-- The live deletion of `x` at seq 11 (`{id:"x", seq:11, deleted:true}`). -/
def jobDel : ChangeJob :=
  { change := { id := "x", seq := 11, deleted := true, changes := [] },
    retry := 0, ignoreSeq := false }

/-- Initial watcher state for the update-then-delete scenario. -/
def stXA : WState :=
  { queue := [jobUpd, jobDel], skipped := [], savedSeq := 0, stage := "watch",
    fetchCount := 0, actions := [] }

/-- A heartbeat change: `{id:"", seq:12}`. -/
def jobHB : ChangeJob :=
  { change := { id := "", seq := 12, deleted := false, changes := [] },
    retry := 0, ignoreSeq := false }

/-- Watcher state before the heartbeat arrives, checkpoint at 5. -/
def stHB : WState :=
  { queue := [], skipped := [], savedSeq := 5, stage := "watch",
    fetchCount := 0, actions := [] }

/-- An environment whose document fetch always fails (for the bounded
retry / exhaustion scenarios). -/
def failEnv (retryMax : Nat) (lostSaveOk : Bool) : Env :=
  { getDoc := fun _ _ _ => DocResult.failure "fetch failed",
    formatPkg := fun _ => none,
    retryMax := retryMax,
    lostSaveOk := lostSaveOk }

/-- The job for `{id:"y", seq:20, deleted:false, changes:[{rev:"r"}]}` at
a given retry count. -/
def jobY (retry : Nat) : ChangeJob :=
  { change := { id := "y", seq := 20, deleted := false, changes := [{ rev := "r" }] },
    retry := retry, ignoreSeq := false }

/-- Initial watcher state for the exhaustion scenario: the `y` change is
queued, nothing parked, checkpoint at 0. -/
def stY : WState :=
  { queue := [jobY 0], skipped := [], savedSeq := 0, stage := "watch",
    fetchCount := 0, actions := [] }

/-- A sample change for the reader-driver witness. -/
def chX : Change := { id := "x", seq := 30, deleted := false, changes := [{ rev := "b" }] }

/-- An empty reader-driver state. -/
def rstInit : RState := { queue := [], lastSeen := [], paused := false }

/-- The effective ignore-seq of a job as the consumer wrapper computes it
(`watch.ts` line 326): `job.retry > 0 || job.ignoreSeq`. -/
def effIgnoreSeq (job : ChangeJob) : Bool := decide (0 < job.retry) || job.ignoreSeq

/-- Invariant of the scheduler model, strong enough to give per-id
first-invocation ordering: at most one worker invocation runs; queue
entries are strictly sorted by arrival index; `started` (first-invocation
order) is strictly sorted by arrival index; every started index is at
most every queued index; all indices point into `arrivals`; and the
in-flight job's index lies strictly below every queued index and at least
every started index. -/
structure SchedInv (s : SchedState) : Prop where
  run_le : s.running ≤ 1
  queue_sorted : List.Pairwise (· < ·) (s.queue.map Prod.fst)
  started_sorted : List.Pairwise (· < ·) s.started
  started_le_queue : ∀ q ∈ s.queue.map Prod.fst, ∀ t ∈ s.started, t ≤ q
  queue_lt : ∀ q ∈ s.queue.map Prod.fst, q < s.arrivals.length
  started_lt : ∀ t ∈ s.started, t < s.arrivals.length
  current_lt : ∀ i j, s.current = some (i, j) → i < s.arrivals.length
  current_lt_queue : ∀ i j, s.current = some (i, j) →
    ∀ q ∈ s.queue.map Prod.fst, i < q
  started_le_current : ∀ i j, s.current = some (i, j) → ∀ t ∈ s.started, t ≤ i

theorem loop_heartbeat (env : Env) (n : Nat) (job : ChangeJob)
    (h : job.change.id = "") :
    loop env n job = (Except.ok (), [Action.incPackages, Action.logNoName], n) := by
  simp [loop, h]

theorem loop_deleted (env : Env) (n : Nat) (job : ChangeJob)
    (h : job.change.id ≠ "") (hd : job.change.deleted = true) :
    loop env n job =
      (Except.error LoopErr.deletedError,
       Action.incPackages ::
         (if 0 < job.retry then [Action.backoffWait job.retry] else []), n) := by
  simp [loop, h, hd]

theorem consume_ok (env : Env) (st : WState) (job : ChangeJob)
    (acts : List Action) (n : Nat)
    (h : loop env st.fetchCount job = (Except.ok (), acts, n)) :
    consume env st job =
      if effIgnoreSeq job then
        { st with skipped := eraseKey job.change.id st.skipped,
                  fetchCount := n, actions := st.actions ++ acts }
      else
        { st with skipped := eraseKey job.change.id st.skipped,
                  fetchCount := n,
                  savedSeq := saveSeqModel st.savedSeq job.change.seq,
                  actions := st.actions ++ acts ++
                    [Action.saveSeq job.change.seq,
                     Action.logProgress job.change.seq] } := by
  by_cases hig : (decide (0 < job.retry) || job.ignoreSeq) = true
  · simp [consume, h, effIgnoreSeq, hig]
  · simp [consume, h, effIgnoreSeq, hig]

theorem consume_deleted (env : Env) (st : WState) (job : ChangeJob)
    (acts : List Action) (n : Nat)
    (h : loop env st.fetchCount job = (Except.error LoopErr.deletedError, acts, n)) :
    consume env st job =
      { st with skipped := eraseKey job.change.id st.skipped,
                fetchCount := n,
                actions := st.actions ++ acts ++ [Action.deleteObject job.change.id] ++
                  (if effIgnoreSeq job then []
                   else [Action.logProgress job.change.seq]) } := by
  by_cases hig : (decide (0 < job.retry) || job.ignoreSeq) = true
  · simp [consume, h, effIgnoreSeq, hig]
  · simp [consume, h, effIgnoreSeq, hig]

theorem consume_err (env : Env) (st : WState) (job : ChangeJob)
    (msg : String) (acts : List Action) (n : Nat)
    (h : loop env st.fetchCount job = (Except.error (LoopErr.err msg), acts, n)) :
    consume env st job =
      if job.retry + 1 ≤ env.retryMax then
        { st with skipped := eraseKey job.change.id st.skipped,
                  fetchCount := n,
                  queue := { job with retry := job.retry + 1 } :: st.queue,
                  actions := st.actions ++ acts ++ [Action.reportError msg] ++
                    (if effIgnoreSeq job then []
                     else [Action.logProgress job.change.seq]) }
      else
        { st with skipped := setKey job.change.id { job with retry := job.retry + 1 }
                    (eraseKey job.change.id st.skipped),
                  fetchCount := n,
                  actions := st.actions ++ acts ++ [Action.reportError msg] ++
                    [if env.lostSaveOk then Action.lostSave job.change.id
                     else Action.logLostError] ++
                    (if effIgnoreSeq job then []
                     else [Action.logProgress job.change.seq]) } := by
  by_cases hig : (decide (0 < job.retry) || job.ignoreSeq) = true
  · by_cases hr : job.retry + 1 ≤ env.retryMax
    · by_cases hl : env.lostSaveOk <;>
        simp [consume, h, effIgnoreSeq, hig, hr, hl]
    · by_cases hl : env.lostSaveOk <;>
        simp [consume, h, effIgnoreSeq, hig, hr, hl]
  · by_cases hr : job.retry + 1 ≤ env.retryMax
    · by_cases hl : env.lostSaveOk <;>
        simp [consume, h, effIgnoreSeq, hig, hr, hl]
    · by_cases hl : env.lostSaveOk <;>
        simp [consume, h, effIgnoreSeq, hig, hr, hl]

theorem eraseKey_idem {α : Type} (k : String) (l : List (String × α)) :
    eraseKey k (eraseKey k l) = eraseKey k l := by
  simp [eraseKey, List.filter_filter]

theorem jobY_retry_succ (r : Nat) : { jobY r with retry := r + 1 } = jobY (r + 1) := rfl

theorem loop_jobY (rmax : Nat) (lostOk : Bool) (m r : Nat) :
    loop (failEnv rmax lostOk) m (jobY r) =
      (Except.error (LoopErr.err "fetch failed"),
       Action.incPackages ::
         ((if 0 < r then [Action.backoffWait r] else []) ++ [Action.fetchDoc "y" "r"]),
       m + 1) := by
  by_cases h : 0 < r <;> simp [loop, jobY, failEnv, h]


theorem runQueue_nil (env : Env) (fuel : Nat) (st : WState) (h : st.queue = []) :
    runQueue env fuel st = st := by
  cases fuel <;> simp [runQueue, h]

theorem runQueue_cons (env : Env) (fuel : Nat) (st : WState) (job : ChangeJob)
    (rest : List ChangeJob) (h : st.queue = job :: rest) :
    runQueue env (fuel + 1) st =
      runQueue env fuel (consume env { st with queue := rest } job) := by
  simp [runQueue, h]

theorem runFail_exhausts (rmax : Nat) (lostOk : Bool) :
    ∀ (k r : Nat) (st : WState), r + k = rmax → st.queue = [jobY r] →
      (runQueue (failEnv rmax lostOk) (k + 2) st).queue = [] ∧
      (runQueue (failEnv rmax lostOk) (k + 2) st).skipped =
        setKey "y" (jobY (rmax + 1)) (eraseKey "y" st.skipped) ∧
      (runQueue (failEnv rmax lostOk) (k + 2) st).savedSeq = st.savedSeq ∧
      (runQueue (failEnv rmax lostOk) (k + 2) st).actions.count
          (Action.fetchDoc "y" "r") =
        st.actions.count (Action.fetchDoc "y" "r") + (k + 1) ∧
      (runQueue (failEnv rmax lostOk) (k + 2) st).actions.count
          (Action.reportError "fetch failed") =
        st.actions.count (Action.reportError "fetch failed") + (k + 1) ∧
      (if lostOk then Action.lostSave "y" else Action.logLostError) ∈
        (runQueue (failEnv rmax lostOk) (k + 2) st).actions := by
  intro k
  induction k with
  | zero =>
    intro r st hr hq
    have hr' : r = rmax := by omega
    subst hr'
    have hloop := loop_jobY r lostOk st.fetchCount r
    have hcons := consume_err (failEnv r lostOk) { st with queue := [] } (jobY r)
      "fetch failed" _ _ hloop
    have hnotle : ¬ ((jobY r).retry + 1 ≤ (failEnv r lostOk).retryMax) := by
      simp [jobY, failEnv]
    rw [if_neg hnotle] at hcons
    rw [show (0 + 2) = 1 + 1 from rfl,
      runQueue_cons (failEnv r lostOk) 1 st (jobY r) [] hq, hcons,
      runQueue_nil _ _ _ (by simp)]
    by_cases h0 : 0 < r <;> by_cases hl : lostOk <;>
      simp [jobY, failEnv, effIgnoreSeq, h0, hl, List.count_append,
        List.count_cons]
  | succ k ih =>
    intro r st hr hq
    have hloop := loop_jobY rmax lostOk st.fetchCount r
    have hcons := consume_err (failEnv rmax lostOk) { st with queue := [] } (jobY r)
      "fetch failed" _ _ hloop
    have hle' : ((jobY r).retry + 1 ≤ (failEnv rmax lostOk).retryMax) := by
      simp [jobY, failEnv]; omega
    rw [if_pos hle'] at hcons
    have hstep :
        runQueue (failEnv rmax lostOk) (k + 1 + 2) st =
        runQueue (failEnv rmax lostOk) (k + 2)
          (consume (failEnv rmax lostOk) { st with queue := [] } (jobY r)) :=
      runQueue_cons (failEnv rmax lostOk) (k + 2) st (jobY r) [] hq
    obtain ⟨h1, h2, h3, h4, h5, h6⟩ :=
      ih (r + 1) (consume (failEnv rmax lostOk) { st with queue := [] } (jobY r))
        (by omega) (by rw [hcons]; simp [jobY])
    refine ⟨?_, ?_, ?_, ?_, ?_, ?_⟩
    · rw [hstep]; exact h1
    · rw [hstep, h2, hcons]; simp [jobY, eraseKey_idem]
    · rw [hstep, h3, hcons]
    · rw [hstep, h4, hcons]
      by_cases h0 : 0 < r <;>
        simp [jobY, failEnv, effIgnoreSeq, h0, List.count_append,
          List.count_cons] <;> omega
    · rw [hstep, h5, hcons]
      by_cases h0 : 0 < r <;>
        simp [jobY, failEnv, effIgnoreSeq, h0, List.count_append,
          List.count_cons] <;> omega
    · rw [hstep]; exact h6

theorem schedInv_init : SchedInv schedInit := by
  constructor <;> simp [schedInit]

theorem schedInv_arrive (s : SchedState) (c : Change) (h : SchedInv s) :
    SchedInv (arriveF s c) := by
  obtain ⟨h1, h2, h3, h4, h5, h6, h7, h8, h9⟩ := h
  have hlen : (arriveF s c).arrivals.length = s.arrivals.length + 1 := by
    simp [arriveF]
  have hq : (arriveF s c).queue.map Prod.fst =
      s.queue.map Prod.fst ++ [s.arrivals.length] := by
    simp [arriveF]
  constructor
  · simpa [arriveF] using h1
  · rw [hq, List.pairwise_append]
    refine ⟨h2, by simp, ?_⟩
    intro a ha b hb
    simp only [List.mem_singleton] at hb
    subst hb
    exact h5 a ha
  · simpa [arriveF] using h3
  · rw [hq]
    intro q hq' t ht
    rcases List.mem_append.mp hq' with hql | hqr
    · exact h4 q hql t (by simpa [arriveF] using ht)
    · simp only [List.mem_singleton] at hqr
      subst hqr
      exact le_of_lt (h6 t (by simpa [arriveF] using ht))
  · rw [hq, hlen]
    intro q hq'
    rcases List.mem_append.mp hq' with hql | hqr
    · exact lt_trans (h5 q hql) (Nat.lt_succ_self _)
    · simp only [List.mem_singleton] at hqr
      subst hqr
      exact Nat.lt_succ_self _
  · rw [hlen]
    intro t ht
    exact lt_trans (h6 t (by simpa [arriveF] using ht)) (Nat.lt_succ_self _)
  · rw [hlen]
    intro i j hc
    exact lt_trans (h7 i j (by simpa [arriveF] using hc)) (Nat.lt_succ_self _)
  · rw [hq]
    intro i j hc q hq'
    rcases List.mem_append.mp hq' with hql | hqr
    · exact h8 i j (by simpa [arriveF] using hc) q hql
    · simp only [List.mem_singleton] at hqr
      subst hqr
      exact h7 i j (by simpa [arriveF] using hc)
  · intro i j hc t ht
    exact h9 i j (by simpa [arriveF] using hc) t (by simpa [arriveF] using ht)

theorem schedInv_start (s : SchedState) (i : Nat) (j : ChangeJob)
    (rest : List (Nat × ChangeJob)) (hq : s.queue = (i, j) :: rest)
    (h : SchedInv s) : SchedInv (startF s i j rest) := by
  obtain ⟨h1, h2, h3, h4, h5, h6, h7, h8, h9⟩ := h
  have hmemi : i ∈ s.queue.map Prod.fst := by rw [hq]; simp
  have hpair := h2
  rw [hq] at hpair
  simp only [List.map_cons, List.pairwise_cons] at hpair
  obtain ⟨hfront, hrest⟩ := hpair
  constructor
  · simp [startF]
  · simpa [startF] using hrest
  · simp only [startF]
    by_cases hm : i ∈ s.started
    · simpa [hm] using h3
    · simp only [hm, if_false]
      rw [List.pairwise_append]
      refine ⟨h3, by simp, ?_⟩
      intro t ht b hb
      simp only [List.mem_singleton] at hb
      rw [hb]
      exact lt_of_le_of_ne (h4 i hmemi t ht) (fun hti => hm (hti ▸ ht))
  · intro q hq' t ht
    simp only [startF] at hq' ht
    have hqmem : q ∈ s.queue.map Prod.fst := by
      rw [hq]; simp only [List.map_cons, List.mem_cons]; right; exact hq'
    by_cases hm : i ∈ s.started
    · rw [if_pos hm] at ht
      exact h4 q hqmem t ht
    · rw [if_neg hm] at ht
      rcases List.mem_append.mp ht with htl | htr
      · exact h4 q hqmem t htl
      · simp only [List.mem_singleton] at htr
        rw [htr]
        exact le_of_lt (hfront q hq')
  · intro q hq'
    simp only [startF] at hq' ⊢
    exact h5 q (by rw [hq]; simp only [List.map_cons, List.mem_cons]; right; exact hq')
  · intro t ht
    simp only [startF] at ht ⊢
    by_cases hm : i ∈ s.started
    · rw [if_pos hm] at ht
      exact h6 t ht
    · rw [if_neg hm] at ht
      rcases List.mem_append.mp ht with htl | htr
      · exact h6 t htl
      · simp only [List.mem_singleton] at htr
        rw [htr]
        exact h5 i hmemi
  · intro i' j' hc
    simp only [startF, Option.some.injEq, Prod.mk.injEq] at hc
    obtain ⟨hi, _⟩ := hc
    subst hi
    simpa [startF] using h5 i hmemi
  · intro i' j' hc q hq'
    simp only [startF, Option.some.injEq, Prod.mk.injEq] at hc
    obtain ⟨hi, _⟩ := hc
    subst hi
    simp only [startF] at hq'
    exact hfront q hq'
  · intro i' j' hc t ht
    simp only [startF, Option.some.injEq, Prod.mk.injEq] at hc
    obtain ⟨hi, _⟩ := hc
    subst hi
    simp only [startF] at ht
    by_cases hm : i ∈ s.started
    · rw [if_pos hm] at ht
      exact h4 i hmemi t ht
    · rw [if_neg hm] at ht
      rcases List.mem_append.mp ht with htl | htr
      · exact h4 i hmemi t htl
      · simp only [List.mem_singleton] at htr
        rw [htr]

theorem schedInv_finishDone (s : SchedState) (h : SchedInv s) :
    SchedInv (finishDoneF s) := by
  obtain ⟨h1, h2, h3, h4, h5, h6, h7, h8, h9⟩ := h
  constructor <;> simp only [finishDoneF] <;>
    first
      | exact Nat.zero_le _
      | exact h2
      | exact h3
      | exact h4
      | exact h5
      | exact h6
      | (intro i j hc; simp at hc)

theorem schedInv_finishRetry (s : SchedState) (i : Nat) (j : ChangeJob)
    (hc : s.current = some (i, j)) (h : SchedInv s) :
    SchedInv (finishRetryF s i j) := by
  obtain ⟨h1, h2, h3, h4, h5, h6, h7, h8, h9⟩ := h
  have hqmap : (finishRetryF s i j).queue.map Prod.fst = i :: s.queue.map Prod.fst := by
    simp [finishRetryF]
  constructor
  · simp [finishRetryF]
  · rw [hqmap, List.pairwise_cons]
    exact ⟨fun q hq => h8 i j hc q hq, h2⟩
  · simpa [finishRetryF] using h3
  · rw [hqmap]
    intro q hq' t ht
    simp only [finishRetryF] at ht
    rcases List.mem_cons.mp hq' with hqi | hqo
    · rw [hqi]
      exact h9 i j hc t ht
    · exact h4 q hqo t ht
  · rw [hqmap]
    intro q hq'
    simp only [finishRetryF]
    rcases List.mem_cons.mp hq' with hqi | hqo
    · rw [hqi]
      exact h7 i j hc
    · exact h5 q hqo
  · intro t ht
    simp only [finishRetryF] at ht ⊢
    exact h6 t ht
  · intro i' j' hc'
    simp [finishRetryF] at hc'
  · intro i' j' hc'
    simp [finishRetryF] at hc'
  · intro i' j' hc'
    simp [finishRetryF] at hc'

theorem schedInv_step (rmax : Nat) (s s' : SchedState) (h : SchedInv s)
    (hstep : SchedStep rmax s s') : SchedInv s' := by
  cases hstep with
  | arrive c => exact schedInv_arrive s c h
  | start i j rest h0 hq => exact schedInv_start s i j rest hq h
  | finishDone i j hc => exact schedInv_finishDone s h
  | finishRetry i j hc hr => exact schedInv_finishRetry s i j hc h

theorem schedInv_reachable (rmax : Nat) (s : SchedState)
    (h : SchedReachable rmax s) : SchedInv s := by
  induction h with
  | refl => exact schedInv_init
  | tail _ hstep ih => exact schedInv_step rmax _ _ ih hstep

theorem lookupKey_eraseKey_self {α : Type} (k : String) (l : List (String × α)) :
    lookupKey k (eraseKey k l) = none := by
  have h : (eraseKey k l).find? (fun p => p.1 == k) = none := by
    apply List.find?_eq_none.mpr
    intro p hp
    simp only [eraseKey, List.mem_filter, bne_iff_ne, ne_eq] at hp
    simp [hp.2]
  simp [lookupKey, h]

theorem keys_setKey {α : Type} (k : String) (v : α) (l : List (String × α)) :
    (setKey k v l).map Prod.fst =
      if l.any (fun p => p.1 == k) then l.map Prod.fst
      else l.map Prod.fst ++ [k] := by
  by_cases h : l.any (fun p => p.1 == k)
  · rw [setKey, if_pos h, if_pos h, List.map_map]
    apply List.map_congr_left
    intro p _
    by_cases hp : p.1 == k
    · simp only [Function.comp_apply, hp, if_pos]
      exact (eq_of_beq hp).symm
    · have hne : ¬ p.1 = k := by simpa using hp
      simp [Function.comp_apply, hne]
  · rw [setKey, if_neg h, if_neg h]
    simp

theorem nodup_keys_setKey {α : Type} (k : String) (v : α) (l : List (String × α))
    (h : (l.map Prod.fst).Nodup) : ((setKey k v l).map Prod.fst).Nodup := by
  rw [keys_setKey]
  by_cases ha : l.any (fun p => p.1 == k)
  · rwa [if_pos ha]
  · rw [if_neg ha]
    rw [List.nodup_append]
    refine ⟨h, List.nodup_singleton k, ?_⟩
    intro a haa hb
    simp only [List.mem_singleton] at hb
    rw [List.any_eq_true] at ha
    apply ha
    simp only [List.mem_map] at haa
    obtain ⟨p, hp, hpa⟩ := haa
    exact ⟨p, hp, by simp [hpa, hb]⟩

theorem nodup_keys_eraseKey {α : Type} (k : String) (l : List (String × α))
    (h : (l.map Prod.fst).Nodup) : ((eraseKey k l).map Prod.fst).Nodup :=
  List.Nodup.sublist (List.Sublist.map Prod.fst (List.filter_sublist l)) h

theorem loop_no_saveSeq (env : Env) (n : Nat) (job : ChangeJob) (s : Int) :
    Action.saveSeq s ∉ (loop env n job).2.1 := by
  by_cases h1 : job.change.id = ""
  · simp [loop, h1]
  · by_cases h2 : job.change.deleted
    · by_cases h0 : 0 < job.retry <;> simp [loop, h1, h2, h0]
    · cases hc : job.change.changes with
      | nil => by_cases h0 : 0 < job.retry <;> simp [loop, h1, h2, h0, hc]
      | cons c cs =>
        cases hres : env.getDoc n job.change.id c.rev with
        | failure msg =>
          by_cases h0 : 0 < job.retry <;> simp [loop, h1, h2, h0, hc, hres]
        | success doc =>
          cases hf : env.formatPkg doc with
          | none =>
            by_cases h0 : 0 < job.retry <;> simp [loop, h1, h2, h0, hc, hres, hf]
          | some record =>
            by_cases h0 : 0 < job.retry <;> simp [loop, h1, h2, h0, hc, hres, hf]

theorem find_map_set {α : Type} (k : String) (v : α) :
    ∀ l : List (String × α), l.any (fun p => p.1 == k) = true →
      ((l.map (fun p => if p.1 == k then (k, v) else p)).find?
        (fun p => p.1 == k)) = some (k, v) := by
  intro l
  induction l with
  | nil => simp
  | cons p t ih =>
    intro h
    by_cases hp : (p.1 == k) = true
    · simp only [List.map_cons, if_pos hp]
      rw [List.find?_cons_of_pos _ (by simp)]
    · simp only [List.any_cons, Bool.or_eq_true] at h
      rcases h with h | h
      · exact absurd h hp
      · simp only [List.map_cons, if_neg hp]
        rw [@List.find?_cons_of_neg _ (fun p => p.1 == k) p _ hp]
        exact ih h

theorem find_append_new {α : Type} (k : String) (v : α) :
    ∀ l : List (String × α), l.any (fun p => p.1 == k) = false →
      ((l ++ [(k, v)]).find? (fun p => p.1 == k)) = some (k, v) := by
  intro l
  induction l with
  | nil => simp
  | cons p t ih =>
    intro h
    simp only [List.any_cons, Bool.or_eq_false_iff] at h
    simp only [List.cons_append]
    rw [@List.find?_cons_of_neg _ (fun p => p.1 == k) p _ (by simp [h.1])]
    exact ih h.2

theorem lookupKey_setKey_self {α : Type} (k : String) (v : α)
    (l : List (String × α)) : lookupKey k (setKey k v l) = some v := by
  by_cases ha : l.any (fun p => p.1 == k) = true
  · rw [lookupKey, setKey, if_pos ha, find_map_set k v l ha]
    rfl
  · rw [lookupKey, setKey, if_neg ha,
      find_append_new k v l (Bool.not_eq_true _ ▸ ha)]
    rfl

/-- C1, counterexample. In the spec's update-then-delete scenario
(update of `x` at seq 10, then deletion of `x` at seq 11), the final
persisted seq is 10, not 11 as the claim states: on the `Deleted` path
the wrapper returns after deleting the document without ever calling
`stateManager.save`, so the deletion's seq is never persisted. -/
theorem c1_counterexample :
    (runQueue envXA 2 stXA).savedSeq = 10 ∧
    ¬ (runQueue envXA 2 stXA).savedSeq = 11 ∧
    (runQueue envXA 2 stXA).actions.count (Action.deleteObject "x") = 1 ∧
    (runQueue envXA 2 stXA).actions.count (Action.upsert "x@a#formatted") = 1 := by
  decide

/-- C1, amended. When processing fails with a `Deleted` classification
(`DeletedError`, raised when `change.deleted` is true), the consumer
wrapper deletes the document with that id from the index and the job
completes as success with no retry — and the persisted seq never
advances on this path, regardless of the job's effective `ignoreSeq`
(in the update-then-delete scenario the final persisted seq is 10, from
the update, not 11). -/
theorem c1_deleted_no_checkpoint (env : Env) (st : WState) (job : ChangeJob)
    (hid : job.change.id ≠ "") (hdel : job.change.deleted = true) :
    (consume env st job).savedSeq = st.savedSeq ∧
    (consume env st job).queue = st.queue ∧
    Action.deleteObject job.change.id ∈ (consume env st job).actions ∧
    (consume env st job).skipped = eraseKey job.change.id st.skipped := by
  have hl := loop_deleted env st.fetchCount job hid hdel
  rw [consume_deleted env st job _ _ hl]
  refine ⟨rfl, rfl, ?_, rfl⟩
  simp

/-- C1, witness: the amended theorem applied to the concrete deletion of
`x` at seq 11. -/
theorem c1_witness :
    (consume envXA stXA jobDel).savedSeq = stXA.savedSeq ∧
    (consume envXA stXA jobDel).queue = stXA.queue ∧
    Action.deleteObject "x" ∈ (consume envXA stXA jobDel).actions ∧
    (consume envXA stXA jobDel).skipped = eraseKey "x" stXA.skipped :=
  c1_deleted_no_checkpoint envXA stXA jobDel (by decide) (by decide)

/-- C2, counterexample. A heartbeat `{id:"", seq:12}` arriving as a live
job (retry 0, `ignoreSeq` false) does advance the persisted seq: `loop`
returns success on the empty id, and the wrapper's success path then
calls `save({seq})` because the effective `ignoreSeq` is false. Starting
from checkpoint 5, the checkpoint becomes 12, contradicting the claim
that a heartbeat produces no advance of the persisted seq. -/
theorem c2_counterexample :
    (consume (failEnv 3 true) stHB jobHB).savedSeq = 12 ∧
    ¬ (consume (failEnv 3 true) stHB jobHB).savedSeq = stHB.savedSeq := by
  decide

/-- C2, amended. For every change whose id is empty (a heartbeat),
processing produces no document fetch and no index mutation — the action
trace is exactly the log line plus, when the effective `ignoreSeq` is
false, the checkpoint save and progress log — the queue is untouched and
the job completes as success; but the persisted seq does advance to the
heartbeat's seq whenever the effective `ignoreSeq` is false. -/
theorem c2_heartbeat (env : Env) (st : WState) (job : ChangeJob)
    (hid : job.change.id = "") :
    (consume env st job).actions =
      st.actions ++ [Action.incPackages, Action.logNoName] ++
        (if effIgnoreSeq job then []
         else [Action.saveSeq job.change.seq, Action.logProgress job.change.seq]) ∧
    (consume env st job).queue = st.queue ∧
    (consume env st job).fetchCount = st.fetchCount ∧
    (consume env st job).savedSeq =
      (if effIgnoreSeq job then st.savedSeq
       else saveSeqModel st.savedSeq job.change.seq) := by
  have hl := loop_heartbeat env st.fetchCount job hid
  rw [consume_ok env st job _ _ hl]
  by_cases hig : effIgnoreSeq job = true <;> simp [hig]

/-- C2, witness: the amended theorem applied to the concrete heartbeat
`{id:"", seq:12}`. -/
theorem c2_witness :
    (consume (failEnv 3 true) stHB jobHB).actions =
      stHB.actions ++ [Action.incPackages, Action.logNoName] ++
        (if effIgnoreSeq jobHB then []
         else [Action.saveSeq 12, Action.logProgress 12]) ∧
    (consume (failEnv 3 true) stHB jobHB).queue = stHB.queue ∧
    (consume (failEnv 3 true) stHB jobHB).fetchCount = stHB.fetchCount ∧
    (consume (failEnv 3 true) stHB jobHB).savedSeq =
      (if effIgnoreSeq jobHB then stHB.savedSeq else saveSeqModel stHB.savedSeq 12) :=
  c2_heartbeat (failEnv 3 true) stHB jobHB (by decide)

/-- C3, code bug. The reaper never re-enqueues anything: `checkSkipped`
leaves the queue untouched in every state and only clears the parked map,
because the live `values()` iterator is emptied by `clear()` before the
`for`-of loop runs (watch.ts lines 159-163). At the concrete failing
input — a tick with `y` parked after exhausting its retries and an empty
queue — the resulting state has an empty parked map and still-empty
queue: the parked job is lost, contradicting the claim, spec section 4.G,
and the source's own comment that the map "will be regularly reprocessed
to avoid losing jobs". -/
theorem c3_reaper_drops_parked :
    (∀ st : WState,
      (checkSkipped st).queue = st.queue ∧ (checkSkipped st).skipped = []) ∧
    (checkSkipped { stY with queue := [], skipped := [("y", jobY 4)] }) =
      { stY with queue := [], skipped := [] } := by
  constructor
  · intro st
    by_cases h : 0 < st.skipped.length
    · rw [checkSkipped, if_pos h]
      exact ⟨rfl, rfl⟩
    · rw [checkSkipped, if_neg h]
      exact ⟨rfl, List.length_eq_zero.mp (by omega)⟩
  · decide

/-- C4, counterexample. `run()` never starts the refresh scanner: the
call to `checkToRefresh` is commented out in the source (`// TO DO:
uncomment this`), so the startup sequence contains no refresh-scanner
start, contradicting the claim that `run()` starts it (the spec treats it
as enabled unless disabled by configuration, and no such configuration
exists in the code). -/
theorem c4_counterexample : StartupAction.startRefreshScanner ∉ runStartup := by
  decide

/-- C4, amended. `run()` persists `{stage: "watch"}`, constructs the
consumer queue, starts a 5-second (5000 ms) interval refreshing
`totalSequence` from the registry info endpoint, starts the skipped-jobs
reaper, and starts the change reader driver — exactly these five steps in
this order; the refresh scanner is not started (its invocation is
commented out in the source). -/
theorem c4_startup :
    runStartup =
      [StartupAction.saveStage "watch", StartupAction.createConsumer,
       StartupAction.startTotalSeqInterval 5000, StartupAction.startSkippedReaper,
       StartupAction.startChangeReader] ∧
    runStartup.length = 5 := by
  exact ⟨rfl, rfl⟩

/-- C5. The consumer wrapper computes the effective ignore-seq as
`job.retry > 0 || job.ignoreSeq`, and no job whose effective ignore-seq
is true changes the persisted seq or emits a checkpoint save — in
particular a job that succeeds only after one or more retries (so with
`retry > 0`) never advances the checkpoint. -/
theorem c5_ignoreSeq_honored (env : Env) (st : WState) (job : ChangeJob)
    (hig : effIgnoreSeq job = true) :
    (consume env st job).savedSeq = st.savedSeq ∧
    ∀ s : Int, Action.saveSeq s ∈ (consume env st job).actions →
      Action.saveSeq s ∈ st.actions := by
  rcases hres : loop env st.fetchCount job with ⟨o, acts, n⟩
  have hnos : ∀ s : Int, Action.saveSeq s ∉ acts := by
    intro s
    have h := loop_no_saveSeq env st.fetchCount job s
    rw [hres] at h
    exact h
  cases o with
  | ok u =>
    cases u
    rw [consume_ok env st job acts n hres, if_pos (by rw [hig])]
    refine ⟨rfl, ?_⟩
    intro s hs
    simp only [List.mem_append] at hs
    rcases hs with hs | hs
    · exact hs
    · exact absurd hs (hnos s)
  | error e =>
    cases e with
    | deletedError =>
      rw [consume_deleted env st job acts n hres]
      refine ⟨rfl, ?_⟩
      intro s hs
      simp only [hig, if_true, List.append_nil, List.mem_append,
        List.mem_singleton] at hs
      rcases hs with (hs | hs) | hs
      · exact hs
      · exact absurd hs (hnos s)
      · exact absurd hs (by simp)
    | err msg =>
      rw [consume_err env st job msg acts n hres]
      by_cases hr : job.retry + 1 ≤ env.retryMax
      · rw [if_pos hr]
        refine ⟨rfl, ?_⟩
        intro s hs
        simp only [hig, if_true, List.append_nil, List.mem_append,
          List.mem_singleton] at hs
        rcases hs with (hs | hs) | hs
        · exact hs
        · exact absurd hs (hnos s)
        · exact absurd hs (by simp)
      · rw [if_neg hr]
        refine ⟨rfl, ?_⟩
        intro s hs
        simp only [hig, if_true, List.append_nil, List.mem_append,
          List.mem_singleton] at hs
        rcases hs with ((hs | hs) | hs) | hs
        · exact hs
        · exact absurd hs (hnos s)
        · exact absurd hs (by simp)
        · rcases hl : env.lostSaveOk <;> rw [hl] at hs <;> simp at hs

/-- C5, witness: a retried `y` job (retry 1) leaves the checkpoint
untouched. -/
theorem c5_witness :
    (consume (failEnv 3 true) stY (jobY 1)).savedSeq = stY.savedSeq :=
  (c5_ignoreSeq_honored (failEnv 3 true) stY (jobY 1) (by decide)).1

/-- C6. Bounded retries with parking. For a job whose document fetch
always fails: starting from the live `y` job, the pipeline runs exactly
`retryMax + 1` fetches (one per invocation) and reports each failure to
the error sink; afterwards the queue is empty, the job sits in the parked
set under its id with `retry = retryMax + 1`, the checkpoint never moved,
and a lost-index record was written when the lost write succeeds, its
failure being logged (and either way not fatal: processing completed).
Moreover, in general, on a non-`Deleted` failure the job is re-enqueued
at the front with `retry + 1` while `retry + 1 ≤ retryMax`, and otherwise
leaves the queue and is inserted into the parked set under its id. -/
theorem c6_bounded_retries :
    (∀ (rmax : Nat) (lostOk : Bool),
      (runQueue (failEnv rmax lostOk) (rmax + 2) stY).actions.count
          (Action.fetchDoc "y" "r") = rmax + 1 ∧
      (runQueue (failEnv rmax lostOk) (rmax + 2) stY).actions.count
          (Action.reportError "fetch failed") = rmax + 1 ∧
      (runQueue (failEnv rmax lostOk) (rmax + 2) stY).queue = [] ∧
      (runQueue (failEnv rmax lostOk) (rmax + 2) stY).skipped =
        [("y", jobY (rmax + 1))] ∧
      (runQueue (failEnv rmax lostOk) (rmax + 2) stY).savedSeq = 0 ∧
      (if lostOk then Action.lostSave "y" else Action.logLostError) ∈
        (runQueue (failEnv rmax lostOk) (rmax + 2) stY).actions) ∧
    (∀ (env : Env) (st : WState) (job : ChangeJob) (msg : String)
        (acts : List Action) (n : Nat),
      loop env st.fetchCount job = (Except.error (LoopErr.err msg), acts, n) →
      (job.retry + 1 ≤ env.retryMax →
        (consume env st job).queue =
          { job with retry := job.retry + 1 } :: st.queue ∧
        Action.reportError msg ∈ (consume env st job).actions) ∧
      (env.retryMax < job.retry + 1 →
        (consume env st job).queue = st.queue ∧
        (consume env st job).skipped =
          setKey job.change.id { job with retry := job.retry + 1 }
            (eraseKey job.change.id st.skipped))) := by
  constructor
  · intro rmax lostOk
    obtain ⟨h1, h2, h3, h4, h5, h6⟩ :=
      runFail_exhausts rmax lostOk rmax 0 stY (by omega) rfl
    refine ⟨?_, ?_, h1, ?_, ?_, h6⟩
    · rw [h4]; simp [stY]
    · rw [h5]; simp [stY]
    · rw [h2]; simp [stY, setKey, eraseKey]
    · rw [h3]; rfl
  · intro env st job msg acts n hres
    constructor
    · intro hr
      rw [consume_err env st job msg acts n hres, if_pos hr]
      refine ⟨rfl, ?_⟩
      simp
    · intro hr
      rw [consume_err env st job msg acts n hres, if_neg (by omega)]
      exact ⟨rfl, rfl⟩

/-- C6, witness: with `retryMax = 2` the always-failing `y` job runs
three fetches and ends parked, and a first failure re-enqueues it at the
front with `retry = 1`. -/
theorem c6_witness :
    (runQueue (failEnv 2 true) 4 stY).actions.count (Action.fetchDoc "y" "r") = 3 ∧
    (runQueue (failEnv 2 true) 4 stY).skipped = [("y", jobY 3)] ∧
    (consume (failEnv 2 true) stY (jobY 0)).queue = jobY 1 :: stY.queue :=
  ⟨(c6_bounded_retries.1 2 true).1,
   (c6_bounded_retries.1 2 true).2.2.2.1,
   ((c6_bounded_retries.2 (failEnv 2 true) stY (jobY 0) "fetch failed" _ _
      (loop_jobY 2 true 0 0)).1 (by decide)).1⟩

/-- C7. The process-one-change pipeline `loop` performs exactly the steps
of §4.F in order — it coincides with `processOneChangeSpec`, the
definition transcribed from the specification's words (counter increment;
empty-id success with logged error; backoff when `retry > 0`; `Deleted`
raise on `change.deleted`; success on empty `changes`; fetch at
`changes[0].rev` raising an error carrying the upstream message on
lookup failure; skip on formatter `none`; otherwise upsert) — and it
performs at most one index upsert, none on any failing path. -/
theorem c7_pipeline_steps :
    (∀ (env : Env) (n : Nat) (job : ChangeJob),
      loop env n job = processOneChangeSpec env n job) ∧
    (∀ (env : Env) (n : Nat) (job : ChangeJob),
      countUpserts (loop env n job).2.1 ≤ 1) ∧
    (∀ (env : Env) (n : Nat) (job : ChangeJob) (e : LoopErr),
      (loop env n job).1 = Except.error e →
      countUpserts (loop env n job).2.1 = 0) := by
  refine ⟨?_, ?_, ?_⟩
  · intro env n job
    by_cases h1 : job.change.id = ""
    · simp [loop, processOneChangeSpec, h1]
    · by_cases h2 : job.change.deleted
      · simp [loop, processOneChangeSpec, h1, h2]
      · cases hc : job.change.changes with
        | nil => simp [loop, processOneChangeSpec, h1, h2, hc]
        | cons c cs =>
          cases hres : env.getDoc n job.change.id c.rev with
          | failure msg => simp [loop, processOneChangeSpec, h1, h2, hc, hres]
          | success doc =>
            cases hf : env.formatPkg doc with
            | none => simp [loop, processOneChangeSpec, h1, h2, hc, hres, hf]
            | some record => simp [loop, processOneChangeSpec, h1, h2, hc, hres, hf]
  · intro env n job
    by_cases h1 : job.change.id = ""
    · simp [loop, countUpserts, isUpsert, h1]
    · by_cases h0 : 0 < job.retry <;>
      · by_cases h2 : job.change.deleted
        · simp [loop, countUpserts, isUpsert, h1, h2, h0]
        · cases hc : job.change.changes with
          | nil => simp [loop, countUpserts, isUpsert, h1, h2, h0, hc]
          | cons c cs =>
            cases hres : env.getDoc n job.change.id c.rev with
            | failure msg =>
              simp [loop, countUpserts, isUpsert, h1, h2, h0, hc, hres]
            | success doc =>
              cases hf : env.formatPkg doc with
              | none =>
                simp [loop, countUpserts, isUpsert, h1, h2, h0, hc, hres, hf]
              | some record =>
                simp [loop, countUpserts, isUpsert, h1, h2, h0, hc, hres, hf]
  · intro env n job e he
    by_cases h1 : job.change.id = ""
    · rw [loop_heartbeat env n job h1] at he
      simp at he
    · by_cases h0 : 0 < job.retry <;>
      · by_cases h2 : job.change.deleted
        · simp [loop, countUpserts, isUpsert, h1, h2, h0]
        · cases hc : job.change.changes with
          | nil => simp [loop, h1, h2, h0, hc] at he
          | cons c cs =>
            cases hres : env.getDoc n job.change.id c.rev with
            | failure msg =>
              simp [loop, countUpserts, isUpsert, h1, h2, h0, hc, hres]
            | success doc =>
              cases hf : env.formatPkg doc with
              | none => simp [loop, h1, h2, h0, hc, hres, hf] at he
              | some record => simp [loop, h1, h2, h0, hc, hres, hf] at he

/-- C7, witness: on a failing fetch the pipeline performs no upsert. -/
theorem c7_witness :
    countUpserts (loop (failEnv 2 true) 0 (jobY 0)).2.1 = 0 :=
  c7_pipeline_steps.2.2 (failEnv 2 true) 0 (jobY 0) (LoopErr.err "fetch failed")
    (by rw [loop_jobY 2 true 0 0])

/-- C8. Parked-set uniqueness and supersession. The parked (`skipped`)
map holds at most one entry per package id (key uniqueness is preserved
by the consumer wrapper), and when a job for an id is dequeued the parked
entry for that id is erased before processing: after the wrapper runs,
the parked map is exactly the input with that id erased — except that the
very job being processed re-parks itself (under its own id, over the
erased map) when it fails a non-`Deleted` error with its retries
exhausted. The reaper tick likewise empties the parked map. -/
theorem c8_parked_supersession :
    (∀ (env : Env) (st : WState) (job : ChangeJob),
      (st.skipped.map Prod.fst).Nodup →
        ((consume env st job).skipped.map Prod.fst).Nodup) ∧
    (∀ (env : Env) (st : WState) (job : ChangeJob),
      (consume env st job).skipped = eraseKey job.change.id st.skipped ∨
      (∃ msg : String,
        (loop env st.fetchCount job).1 = Except.error (LoopErr.err msg) ∧
        env.retryMax < job.retry + 1 ∧
        (consume env st job).skipped =
          setKey job.change.id { job with retry := job.retry + 1 }
            (eraseKey job.change.id st.skipped))) ∧
    (∀ st : WState, (checkSkipped st).skipped = []) := by
  have hdisj : ∀ (env : Env) (st : WState) (job : ChangeJob),
      (consume env st job).skipped = eraseKey job.change.id st.skipped ∨
      (∃ msg : String,
        (loop env st.fetchCount job).1 = Except.error (LoopErr.err msg) ∧
        env.retryMax < job.retry + 1 ∧
        (consume env st job).skipped =
          setKey job.change.id { job with retry := job.retry + 1 }
            (eraseKey job.change.id st.skipped)) := by
    intro env st job
    rcases hres : loop env st.fetchCount job with ⟨o, acts, n⟩
    cases o with
    | ok u =>
      cases u
      rw [consume_ok env st job acts n hres]
      left
      by_cases hig : effIgnoreSeq job = true <;> simp [hig]
    | error e =>
      cases e with
      | deletedError =>
        rw [consume_deleted env st job acts n hres]
        left
        rfl
      | err msg =>
        by_cases hr : job.retry + 1 ≤ env.retryMax
        · rw [consume_err env st job msg acts n hres, if_pos hr]
          left
          rfl
        · rw [consume_err env st job msg acts n hres, if_neg hr]
          right
          exact ⟨msg, rfl, by omega, rfl⟩
  refine ⟨?_, hdisj, ?_⟩
  · intro env st job hnd
    rcases hdisj env st job with h | ⟨msg, _, _, h⟩
    · rw [h]
      exact nodup_keys_eraseKey _ _ hnd
    · rw [h]
      exact nodup_keys_setKey _ _ _ (nodup_keys_eraseKey _ _ hnd)
  · intro st
    by_cases h : 0 < st.skipped.length
    · rw [checkSkipped, if_pos h]
      rfl
    · rw [checkSkipped, if_neg h]
      exact List.length_eq_zero.mp (by omega)

/-- C8, witness: processing a fresh `y` job while a stale `y` entry is
parked leaves the parked keys duplicate-free (the stale entry is erased
before processing). -/
theorem c8_witness :
    ((consume (failEnv 3 true) { stY with skipped := [("y", jobY 4)] }
        (jobY 0)).skipped.map Prod.fst).Nodup :=
  c8_parked_supersession.1 (failEnv 3 true)
    { stY with skipped := [("y", jobY 4)] } (jobY 0) (by decide)

/-- C9. In the scheduler model of the concurrency-1 queue: every
reachable state has at most one worker invocation in flight
(`running ∈ {0,1}`); the first-invocation order of jobs (`started`,
recorded as arrival indices) is strictly increasing, so for the changes
sharing any given id the order in which the pipeline is first invoked on
them equals their order of arrival; and a failing job re-enters at the
front of the queue (the head after a retry finish is exactly the failed
job with `retry + 1`), before any later-arrived event. -/
theorem c9_order_and_concurrency (rmax : Nat) (s : SchedState)
    (h : SchedReachable rmax s) :
    s.running ≤ 1 ∧
    List.Pairwise (· < ·) s.started ∧
    (∀ pid : String,
      List.Pairwise (· < ·)
        (s.started.filter (fun i => arrivalId s i == some pid))) ∧
    (∀ (i : Nat) (j : ChangeJob), s.current = some (i, j) →
      (finishRetryF s i j).queue.head? =
        some (i, { j with retry := j.retry + 1 })) := by
  have hinv := schedInv_reachable rmax s h
  refine ⟨hinv.run_le, hinv.started_sorted, ?_, ?_⟩
  · intro pid
    exact List.Pairwise.sublist (List.filter_sublist _) hinv.started_sorted
  · intro i j hc
    simp [finishRetryF]

/-- C9, witness: the theorem applied to the concrete reachable state
after one arrival. -/
theorem c9_witness :
    (arriveF schedInit chX).running ≤ 1 ∧
    List.Pairwise (· < ·) (arriveF schedInit chX).started :=
  ⟨(c9_order_and_concurrency 3 (arriveF schedInit chX)
      (Relation.ReflTransGen.single (SchedStep.arrive schedInit chX))).1,
   (c9_order_and_concurrency 3 (arriveF schedInit chX)
      (Relation.ReflTransGen.single (SchedStep.arrive schedInit chX))).2.1⟩

/-- C10. The change-reader driver: each feed event appends
`{change, retry: 0, ignoreSeq: false}` to the back of the queue; it
records `lastSeen[id] = now` exactly for non-empty ids; the upstream
reader is paused whenever the queue length (after the push) exceeds
`watchMaxPrefetch` (and the pause flag is otherwise unchanged); and on a
saturated transition the upstream reader is resumed iff the queue length
is below `watchMinUnpause`. -/
theorem c10_reader_driver (watchMaxPrefetch watchMinUnpause : Nat)
    (st : RState) (change : Change) (now : Nat) :
    (onChange watchMaxPrefetch st change now).queue =
      st.queue ++ [{ change := change, retry := 0, ignoreSeq := false }] ∧
    (change.id ≠ "" →
      lookupKey change.id (onChange watchMaxPrefetch st change now).lastSeen =
        some now) ∧
    (change.id = "" →
      (onChange watchMaxPrefetch st change now).lastSeen = st.lastSeen) ∧
    ((onChange watchMaxPrefetch st change now).paused =
      (if watchMaxPrefetch < st.queue.length + 1 then true else st.paused)) ∧
    ((onSaturated watchMinUnpause st).2 = true ↔
      st.queue.length < watchMinUnpause) ∧
    ((onSaturated watchMinUnpause st).1.paused =
      (if st.queue.length < watchMinUnpause then false else st.paused)) := by
  refine ⟨?_, ?_, ?_, ?_, ?_, ?_⟩
  · by_cases hid : change.id = "" <;>
      by_cases hlen : watchMaxPrefetch < st.queue.length + 1 <;>
      simp [onChange, hid, hlen]
  · intro hid
    by_cases hlen : watchMaxPrefetch < st.queue.length + 1 <;>
      simp [onChange, hid, hlen, lookupKey_setKey_self]
  · intro hid
    by_cases hlen : watchMaxPrefetch < st.queue.length + 1 <;>
      simp [onChange, hid, hlen]
  · by_cases hid : change.id = "" <;>
      by_cases hlen : watchMaxPrefetch < st.queue.length + 1 <;>
      simp [onChange, hid, hlen]
  · by_cases hlen : st.queue.length < watchMinUnpause <;>
      simp [onSaturated, hlen]
  · by_cases hlen : st.queue.length < watchMinUnpause <;>
      simp [onSaturated, hlen]

/-- C10, witness: the driver records `lastSeen` for the non-empty id
`x`. -/
theorem c10_witness :
    lookupKey "x" (onChange 3 rstInit chX 99).lastSeen = some 99 :=
  (c10_reader_driver 3 1 rstInit chX 99).2.1 (by decide)
